import Mathlib

/-!
Verification of the hybrid RAG retrieval/caching core of the 6-BBQ/6-AI
repository against its natural-language specification.

The Python sources under `src/rag/` (`service.py`, `retrievers.py`,
`cache_utils.py`, `text_utils.py`, `search_factory.py`, `web_search.py`,
`rag_service.py`) are shallowly embedded below.  Python dynamic values that
can appear in document metadata / character-context dictionaries are modelled
by `PyVal`; dictionaries by association lists; fallible Python code (code
that can raise) by `Except PyErr`.  Python floats are modelled by `ℚ`
(IEEE-754 rounding is not modelled; every claim proved here only depends on
comparisons whose margins are far larger than double rounding error, and the
weight constants in the source are literals, not results of float
arithmetic).  Wall-clock timing fields of the source are not modelled.
-/

namespace DnfRag

/-- A dynamically-typed Python value as it can occur in a metadata dict or in
a character-info dict (`None`, `str`, `int`, `float`, `bool`). -/
inductive PyVal where
  | none : PyVal
  | str : String → PyVal
  | int : Int → PyVal
  | float : ℚ → PyVal
  | bool : Bool → PyVal
  deriving DecidableEq, Repr

/-- Python exception kinds relevant to the embedded code. -/
inductive PyErr where
  | valueError : PyErr
  | typeError : PyErr
  | attributeError : PyErr
  deriving DecidableEq, Repr

/-- A Python dict with string keys (e.g. document metadata,
character info), as an association list; a key occurs at most once in the
dicts built by the source, and lookup takes the first binding. -/
def Metadata := List (String × PyVal)

instance : DecidableEq Metadata := by
  unfold Metadata
  infer_instance

instance : Repr Metadata := by
  unfold Metadata
  infer_instance

/-- `m.get(key, default)` on a Python dict: the stored value when the key is
present (even when that value is `None`), the default otherwise. -/
def mget (m : Metadata) (key : String) (dflt : PyVal) : PyVal :=
  match m.lookup key with
  | Option.some v => v
  | Option.none => dflt

/-- `m.get(key)` on a Python dict (default `None`). -/
def mget0 (m : Metadata) (key : String) : PyVal :=
  mget m key PyVal.none

/-- Python truthiness of a `PyVal` (`bool(v)`). -/
def pyTruthy : PyVal → Bool
  | PyVal.none => false
  | PyVal.str s => !(s == "")
  | PyVal.int n => !(n == 0)
  | PyVal.float q => !(q == 0)
  | PyVal.bool b => b

/-- `str(v)` for the value kinds the embedded code applies it to.
`str` of a Python float is abstracted (no claim in this development depends
on the decimal rendering of a float). -/
def pyStr : PyVal → String
  | PyVal.none => "None"
  | PyVal.str s => s
  | PyVal.int n => toString n
  | PyVal.float q => "float:" ++ toString q
  | PyVal.bool b => cond b "True" "False"

/-- Does the character list `p` occur at the start of `t`? -/
def listStartsWith : List Char → List Char → Bool
  | [], _ => true
  | _ :: _, [] => false
  | p :: ps, t :: ts => p == t && listStartsWith ps ts

/-- Does the character list `pat` occur contiguously inside `t`?
This is Python's `pat in t` on strings. -/
def listContainsSeq (pat : List Char) : List Char → Bool
  | [] => listStartsWith pat []
  | c :: ts => listStartsWith pat (c :: ts) || listContainsSeq pat ts

/-- Python `sub in hay` for strings (contiguous substring test). -/
def pyIn (sub hay : String) : Bool :=
  listContainsSeq sub.data hay.data

/-- Python `s.lower()`.  `Char.toLower` only lowers ASCII letters; the
Korean keywords and names appearing in the source are unaffected by either
Python's or this model's lowering. -/
def strLower (s : String) : String :=
  String.mk (s.data.map Char.toLower)

/-- Helper for `pySplit`: split a character list on whitespace runs,
accumulating the current (reversed) word. -/
def splitWsAux (cur : List Char) : List Char → List String
  | [] => if cur.isEmpty then [] else [String.mk cur.reverse]
  | c :: cs =>
    if c.isWhitespace then
      if cur.isEmpty then splitWsAux [] cs
      else String.mk cur.reverse :: splitWsAux [] cs
    else splitWsAux (c :: cur) cs

/-- Python `s.split()`: split on whitespace runs, dropping empty pieces. -/
def pySplit (s : String) : List String :=
  splitWsAux [] s.data

/-- Parse a decimal string the way Python `float(s)` accepts the forms used
in this corpus: optional surrounding whitespace, optional sign, digits with
an optional fractional part (at least one digit overall).  Exponent and
`inf`/`nan` forms are not modelled; no claim below depends on them. -/
def parseFloat (s : String) : Option ℚ :=
  let cs := (s.data.dropWhile Char.isWhitespace).reverse.dropWhile Char.isWhitespace |>.reverse
  let (sign, body) :=
    match cs with
    | '-' :: rest => ((-1 : ℚ), rest)
    | '+' :: rest => ((1 : ℚ), rest)
    | _ => ((1 : ℚ), cs)
  let intPart := body.takeWhile Char.isDigit
  let rest := body.dropWhile Char.isDigit
  let digitsVal : List Char → ℕ := fun ds => ds.foldl (fun a c => a * 10 + (c.toNat - 48)) 0
  match rest with
  | [] =>
    if intPart.isEmpty then Option.none
    else Option.some (sign * (digitsVal intPart : ℚ))
  | '.' :: fracPart =>
    if fracPart.all Char.isDigit ∧ ¬(intPart.isEmpty ∧ fracPart.isEmpty) then
      Option.some (sign * ((digitsVal intPart : ℚ) +
        (digitsVal fracPart : ℚ) / ((10 : ℚ) ^ fracPart.length)))
    else Option.none
  | _ => Option.none

/-- Python `float(v)` on a dynamic value: numbers convert, strings are
parsed (`ValueError` on junk), `None` and other non-numeric values raise
`TypeError`. -/
def pyFloat : PyVal → Except PyErr ℚ
  | PyVal.float q => Except.ok q
  | PyVal.int n => Except.ok (n : ℚ)
  | PyVal.bool b => Except.ok (cond b 1 0)
  | PyVal.str s =>
    match parseFloat s with
    | Option.some q => Except.ok q
    | Option.none => Except.error PyErr.valueError
  | PyVal.none => Except.error PyErr.typeError

/-- `sep.join(parts)` on a list of dynamic values: every element must be a
`str`, otherwise Python raises `TypeError`. -/
def pyJoin (sep : String) : List PyVal → Except PyErr String
  | [] => Except.ok ""
  | PyVal.str s :: rest =>
    match rest with
    | [] => Except.ok s
    | _ =>
      match pyJoin sep rest with
      | Except.ok t => Except.ok (s ++ sep ++ t)
      | Except.error e => Except.error e
  | _ :: _ => Except.error PyErr.typeError

/-- A retrievable document: chunk text plus its metadata dict
(`langchain` `Document`; a `None` metadata dict is folded into the empty
dict, exactly how every embedded use site normalises it). -/
structure Document where
  page_content : String
  metadata : Metadata
  deriving DecidableEq, Repr

/-! ## `StructuredRAGService._determine_weights` (src/rag/service.py) -/

/-- The hardcoded recency-intent keyword list of
`StructuredRAGService._determine_weights`. -/
def recencyKeywords : List String :=
  ["최신", "업데이트", "현재", "패치", "종결"]

/-- `StructuredRAGService._determine_weights`: `[dense, lexical]` ensemble
weights; lexical-favoring `[0.3, 0.7]` by default, swapped to dense-favoring
`[0.7, 0.3]` when the lowercased query contains a recency keyword.  The
`character_info` argument is accepted and ignored, as in the source. -/
def determine_weights (query : String) (_character_info : Option Metadata) : List ℚ :=
  let query_lower := strLower query
  if recencyKeywords.any (fun k => pyIn k query_lower) then
    [7/10, 3/10]
  else
    [3/10, 7/10]

/-! ## `TextProcessor` (src/rag/text_utils.py) -/

/-- `TextProcessor.enhance_query_with_character` (src/rag/text_utils.py):
prepend the truthy `job` value and the stringified truthy `fame` value of the
character dict onto the query; an absent/empty dict or no truthy field
returns the query unchanged.  `" ".join` raises `TypeError` when a kept
`job` value is not a string, exactly as Python would. -/
def enhance_query_with_character (query : String) (character_info : Option Metadata) :
    Except PyErr String :=
  match character_info with
  | Option.none => Except.ok query
  | Option.some ci =>
    if ci.isEmpty then Except.ok query
    else
      let enhancements :=
        (if pyTruthy (mget0 ci "job") then [mget0 ci "job"] else []) ++
        (if pyTruthy (mget0 ci "fame") then [PyVal.str (pyStr (mget0 ci "fame"))] else [])
      if enhancements.isEmpty then Except.ok query
      else
        match pyJoin " " enhancements with
        | Except.ok s => Except.ok (s ++ " " ++ query)
        | Except.error e => Except.error e

/-- `TextProcessor.format_docs_to_context_string` (src/rag/text_utils.py,
identical to `RAGService._format_docs_to_context_string` in
src/rag/rag_service.py): number the documents, render each as a labeled
block, append a source-link line when the metadata has a truthy `url`, and
join the blocks with blank lines. -/
def format_docs_to_context_string (docs : List Document) (context_type : String) : String :=
  let context_parts := docs.enum.map fun p =>
    let doc := p.2
    let content :=
      "[" ++ context_type ++ " 문서 " ++ toString (p.1 + 1) ++ "] " ++ doc.page_content
    if !doc.metadata.isEmpty && pyTruthy (mget0 doc.metadata "url") then
      content ++ "\n참고 링크: " ++ pyStr (mget0 doc.metadata "url")
    else content
  String.intercalate "\n\n" context_parts

/-- `TextProcessor.format_web_search_docs_to_context_string`
(src/rag/text_utils.py, identical to the method in src/rag/rag_service.py):
the main `gemini_search` document first, then a source list built from the
`grounding_source` / `search_suggestions` documents; the literal
`"웹 검색 결과 없음."` when nothing was produced. -/
def format_web_search_docs_to_context_string (web_docs : List Document) : String :=
  let main_content_doc :=
    web_docs.find? fun doc => mget0 doc.metadata "source" == PyVal.str "gemini_search"
  let mainParts :=
    match main_content_doc with
    | Option.some doc =>
      ["[Gemini 웹 검색 결과 - 2025년 최신 정보]\n" ++ doc.page_content]
    | Option.none => []
  let source_docs := web_docs.filter fun doc =>
    mget0 doc.metadata "source" == PyVal.str "grounding_source" ||
    mget0 doc.metadata "source" == PyVal.str "search_suggestions"
  let sourceParts :=
    if source_docs.isEmpty then []
    else
      "[참고 출처]" :: source_docs.enum.map fun p =>
        let title := mget p.2.metadata "title" (PyVal.str ("출처 " ++ toString (p.1 + 1)))
        let url := mget p.2.metadata "url" (PyVal.str "")
        let entry := "출처 " ++ toString (p.1 + 1) ++ ": " ++ pyStr title
        if pyTruthy url then entry ++ " - " ++ pyStr url else entry
  let web_context_parts := mainParts ++ sourceParts
  if web_context_parts.isEmpty then "웹 검색 결과 없음."
  else String.intercalate "\n\n" web_context_parts

/-! ## `CacheManager` (src/rag/cache_utils.py) -/

/-- The `job`/`fame` projection string that
`CacheManager.generate_cache_key` derives from a (truthy) character dict:
`"-".join(filter(None, [ci.get('job',''), str(ci.get('fame',''))]))`.
A kept non-string `job` value makes the join raise `TypeError`. -/
def char_projection (ci : Metadata) : Except PyErr String :=
  let char_key_parts := [mget ci "job" (PyVal.str ""), PyVal.str (pyStr (mget ci "fame" (PyVal.str "")))]
  pyJoin "-" (char_key_parts.filter pyTruthy)

/-- The exact string `CacheManager.generate_cache_key` feeds to `md5`:
the base content alone, or `base|projection` when a truthy character dict
yields a non-empty projection. -/
def cache_key_input (base_content : String) (character_info : Option Metadata) :
    Except PyErr String :=
  match character_info with
  | Option.none => Except.ok base_content
  | Option.some ci =>
    if ci.isEmpty then Except.ok base_content
    else
      match char_projection ci with
      | Except.error e => Except.error e
      | Except.ok simple_char_key =>
        if simple_char_key == "" then Except.ok base_content
        else Except.ok (base_content ++ "|" ++ simple_char_key)

/-- `CacheManager.generate_cache_key` (src/rag/cache_utils.py): the md5 hex
digest of `cache_key_input`.  The digest function itself is an external
parameter of the model (`md5hex`); every claim about the key factors through
the hashed input string. -/
def generate_cache_key (md5hex : String → String) (base_content : String)
    (character_info : Option Metadata) : Except PyErr String :=
  match cache_key_input base_content character_info with
  | Except.ok s => Except.ok (md5hex s)
  | Except.error e => Except.error e

/-- `CacheManager.load_or_create_cached_item` (src/rag/cache_utils.py).
The filesystem and clock are inputs: whether the cache file exists, its age,
the outcome of `pickle.load` on it, the value `creation_func` would build,
and the outcome of `pickle.dump`.  Returns the produced value together with
whether `creation_func` was called.  The save outcome is accepted and
ignored, mirroring the `try/except` that swallows persistence failures. -/
def load_or_create_cached_item {α : Type} (fileExists : Bool) (fileAge : ℚ)
    (expiry_seconds : ℚ) (loadOutcome : Except PyErr α) (creationResult : α)
    (_saveOutcome : Except PyErr Unit) : α × Bool :=
  if fileExists ∧ fileAge < expiry_seconds then
    match loadOutcome with
    | Except.ok item => (item, false)
    | Except.error _ => (creationResult, true)
  else (creationResult, true)

/-! ## `find_job_in_text` (src/job_utils.py) and
`MetadataAwareRetriever` (src/rag/retrievers.py) -/

/-- `find_job_in_text` (src/job_utils.py): scan the `JOB_NAMES` mapping
(lowercased name → original name, in dict iteration order) and return the
original form of the first lowercased job name occurring in the lowercased
text.  The mapping is loaded at runtime from the data file
`job_names.json`, which is not part of the sources; it is therefore a
parameter `jobs` of the model. -/
def find_job_in_text (jobs : List (String × String)) (text : String) : Option String :=
  let text_lower := strLower text
  match jobs.find? fun p => pyIn p.1 text_lower with
  | Option.some p => Option.some p.2
  | Option.none => Option.none

/-- The `class_name` relevance term of
`MetadataAwareRetriever.get_relevant_documents` (src/rag/retrievers.py):
`+10.0` when the detected job occurs in the lowercased class name, else
`+3.0` when some query word longer than 2 chars occurs in it, else `0`;
a truthy non-string `class_name` raises `AttributeError` at `.lower()`. -/
def class_name_term (character_job : Option String) (query_words : List String)
    (meta : Metadata) : Except PyErr ℚ :=
  let v := mget meta "class_name" (PyVal.str "")
  if !pyTruthy v then Except.ok 0
  else
    match v with
    | PyVal.str class_name =>
      let class_name_lower := strLower class_name
      if (match character_job with
          | Option.some j => !(j == "") && pyIn j class_name_lower
          | Option.none => false) then
        Except.ok 10
      else if query_words.any fun w => decide (w.length > 2) && pyIn w class_name_lower then
        Except.ok 3
      else Except.ok 0
    | _ => Except.error PyErr.attributeError

/-- The `title` relevance term of
`MetadataAwareRetriever.get_relevant_documents`: `+5.0` when the detected
job occurs in the lowercased title, plus `1.0` per distinct query word
longer than 1 char occurring in it. -/
def title_term (character_job : Option String) (query_words : List String)
    (meta : Metadata) : Except PyErr ℚ :=
  let v := mget meta "title" (PyVal.str "")
  if !pyTruthy v then Except.ok 0
  else
    match v with
    | PyVal.str title =>
      let title_lower := strLower title
      let jobBonus : ℚ :=
        if (match character_job with
            | Option.some j => !(j == "") && pyIn j title_lower
            | Option.none => false) then 5 else 0
      let matching_words := query_words.countP fun w => pyIn w title_lower && decide (w.length > 1)
      Except.ok (jobBonus + matching_words)
    | _ => Except.error PyErr.attributeError

/-- The content relevance term of
`MetadataAwareRetriever.get_relevant_documents`: `+2.0` when the detected
job occurs in the lowercased first 500 chars of the chunk text. -/
def content_term (character_job : Option String) (page_content : String) : ℚ :=
  let content_lower := strLower (String.mk (page_content.data.take 500))
  if (match character_job with
      | Option.some j => !(j == "") && pyIn j content_lower
      | Option.none => false) then 2 else 0

/-- The quality term of `MetadataAwareRetriever.get_relevant_documents`:
`min(float(quality_score) * 0.2, 1.0)`, with `ValueError` (an unparsable
string) swallowed by the `except ValueError` clause and every other
exception (notably `TypeError` from `float(None)`) propagating. -/
def quality_term (meta : Metadata) : Except PyErr ℚ :=
  match pyFloat (mget meta "quality_score" (PyVal.float 0)) with
  | Except.ok quality => Except.ok (min (quality * (2/10)) 1)
  | Except.error PyErr.valueError => Except.ok 0
  | Except.error e => Except.error e

/-- The per-document score of the loop body of
`MetadataAwareRetriever.get_relevant_documents`: base `1.0`, plus the
quality boost, plus the class/title/content relevance terms, with the
source's exception order (class branch, then title branch, then quality). -/
def score_document (jobs : List (String × String)) (query : String) (doc : Document) :
    Except PyErr ℚ :=
  let query_lower := strLower query
  let query_words := (pySplit query_lower).dedup
  let character_job := find_job_in_text jobs query_lower
  match class_name_term character_job query_words doc.metadata with
  | Except.error e => Except.error e
  | Except.ok c =>
    match title_term character_job query_words doc.metadata with
    | Except.error e => Except.error e
    | Except.ok t =>
      match quality_term doc.metadata with
      | Except.error e => Except.error e
      | Except.ok q =>
        Except.ok (1 + q + (c + t + content_term character_job doc.page_content))

/-- The scoring loop of `MetadataAwareRetriever.get_relevant_documents`:
score the candidates in order, the first exception aborting the whole call
exactly as in Python. -/
def score_all (jobs : List (String × String)) (query : String) :
    List Document → Except PyErr (List (Document × ℚ))
  | [] => Except.ok []
  | d :: ds =>
    match score_document jobs query d with
    | Except.error e => Except.error e
    | Except.ok s =>
      match score_all jobs query ds with
      | Except.error e => Except.error e
      | Except.ok rest => Except.ok ((d, s) :: rest)

/-- Non-strict descending comparison on scored documents: the total
preorder w.r.t. which the source's
`scored_docs.sort(key=lambda x: x[1], reverse=True)` sorts. -/
def scoredGE (p q : Document × ℚ) : Prop := q.2 ≤ p.2

instance : DecidableRel scoredGE := fun p q => by
  unfold scoredGE
  infer_instance

instance : IsTotal (Document × ℚ) scoredGE :=
  ⟨fun a b => le_total b.2 a.2⟩

instance : IsTrans (Document × ℚ) scoredGE :=
  ⟨fun _ _ _ h1 h2 => le_trans h2 h1⟩

namespace MetadataAwareRetriever

/-- `MetadataAwareRetriever.get_relevant_documents` (src/rag/retrievers.py,
`top_n` defaults to 40 in the source): score the base retriever's documents,
sort them stably by descending score (Python's `list.sort` with
`reverse=True` is a stable sort; `List.insertionSort` with the non-strict
descending relation `scoredGE` is extensionally that sort), and keep the
first `top_n`.  The base retriever's output is the `docs` argument. -/
def get_relevant_documents (jobs : List (String × String)) (top_n : ℕ) (query : String)
    (docs : List Document) : Except PyErr (List Document) :=
  match score_all jobs query docs with
  | Except.error e => Except.error e
  | Except.ok scored_docs =>
    Except.ok (((List.insertionSort scoredGE scored_docs).take top_n).map Prod.fst)

end MetadataAwareRetriever

/-! ## `SearcherFactory` (src/rag/search_factory.py) -/

/-- The per-document enrichment of
`SearcherFactory.create_bm25_data_from_vectordb` (src/rag/search_factory.py):
with a truthy metadata dict, a truthy `class_name` is prepended once on its
own line (rendered through the f-string, i.e. `str()`), and the marker
`"추천문서"` is appended when `float(quality_score)` succeeds and exceeds
`3.0` (both `ValueError` and `TypeError` are swallowed here). -/
def enrich_bm25_content (txt : String) (meta : Metadata) : String :=
  if meta.isEmpty then txt
  else
    let e1 :=
      if pyTruthy (mget0 meta "class_name") then pyStr (mget0 meta "class_name") ++ "\n" ++ txt
      else txt
    match pyFloat (mget meta "quality_score" (PyVal.float 0)) with
    | Except.ok quality_score => if 3 < quality_score then e1 ++ "\n추천문서" else e1
    | Except.error _ => e1

/-- `SearcherFactory.create_bm25_data_from_vectordb`
(src/rag/search_factory.py): zip the vector store's raw texts and metadata
dicts and build the BM25 corpus from the enriched text, keeping the original
metadata. -/
def create_bm25_data_from_vectordb (storeTexts : List String) (storeMetas : List Metadata) :
    List Document :=
  (storeTexts.zip storeMetas).map fun p =>
    { page_content := enrich_bm25_content p.1 p.2, metadata := p.2 }

namespace RAGService

/-- The per-document enrichment of
`RAGService._create_bm25_data_from_vectordb` (src/rag/rag_service.py): the
legacy variant prepends a labeled `"제목: "` title line when `title` is
truthy and appends a labeled `"\n직업: "` class line when `class_name` is
truthy. -/
def enrich_bm25_content_legacy (txt : String) (meta : Metadata) : String :=
  if meta.isEmpty then txt
  else
    let e1 :=
      if pyTruthy (mget0 meta "title") then "제목: " ++ pyStr (mget0 meta "title") ++ "\n" ++ txt
      else txt
    if pyTruthy (mget0 meta "class_name") then e1 ++ "\n직업: " ++ pyStr (mget0 meta "class_name")
    else e1

/-- `RAGService._create_bm25_data_from_vectordb` (src/rag/rag_service.py). -/
def create_bm25_data_from_vectordb_legacy (storeTexts : List String)
    (storeMetas : List Metadata) : List Document :=
  (storeTexts.zip storeMetas).map fun p =>
    { page_content := enrich_bm25_content_legacy p.1 p.2, metadata := p.2 }

/-- `RAGService._enhance_query_with_character` (src/rag/rag_service.py):
identical to the `TextProcessor` variant except that it reads the `class`
key instead of `job`. -/
def enhance_query_with_character (query : String) (character_info : Option Metadata) :
    Except PyErr String :=
  match character_info with
  | Option.none => Except.ok query
  | Option.some ci =>
    if ci.isEmpty then Except.ok query
    else
      let enhancements :=
        (if pyTruthy (mget0 ci "class") then [mget0 ci "class"] else []) ++
        (if pyTruthy (mget0 ci "fame") then [PyVal.str (pyStr (mget0 ci "fame"))] else [])
      if enhancements.isEmpty then Except.ok query
      else
        match pyJoin " " enhancements with
        | Except.ok s => Except.ok (s ++ " " ++ query)
        | Except.error e => Except.error e

/-- The dictionary `RAGService._hybrid_search` returns
(src/rag/rag_service.py); the wall-clock `search_times` entries are not
modelled. -/
structure HybridSearchResult where
  all_docs : List Document
  internal_docs : List Document
  web_docs : List Document
  internal_context_provided_to_llm : String
  web_context_provided_to_llm : String
  used_web_search : Bool
  enhanced_query : String
  deriving DecidableEq, Repr

/-- `RAGService._hybrid_search` (src/rag/rag_service.py).  External effects
are inputs: `cached` is what the result-cache lookup produced; the
`internalOutcome`/`webOutcome` arguments are the outcomes of the internal
retrieval pipeline (`MetadataAwareRetriever.get_relevant_documents` on the
enhanced query) and of the web branch (`_gemini_search_grounding`, i.e. the
grounding client), an `Except.error` meaning the branch raised.  The
`_search_internal`/`_search_web` wrappers catch every exception of their
branch and degrade it to an empty document list; saving the result to the
cache swallows its own errors and does not affect the returned value. -/
def hybrid_search (cached : Option HybridSearchResult) (query : String)
    (character_info : Option Metadata)
    (internalOutcome webOutcome : Except PyErr (List Document)) :
    Except PyErr HybridSearchResult :=
  match cached with
  | Option.some r => Except.ok r
  | Option.none =>
    match enhance_query_with_character query character_info with
    | Except.error e => Except.error e
    | Except.ok enhanced_query =>
      let internal_docs := match internalOutcome with
        | Except.ok l => l
        | Except.error _ => []
      let web_docs := match webOutcome with
        | Except.ok l => l
        | Except.error _ => []
      Except.ok
        { all_docs := internal_docs ++ web_docs
          internal_docs := internal_docs
          web_docs := web_docs
          internal_context_provided_to_llm := format_docs_to_context_string internal_docs "내부"
          web_context_provided_to_llm := format_web_search_docs_to_context_string web_docs
          used_web_search := !web_docs.isEmpty
          enhanced_query := enhanced_query }

end RAGService

/-! ## Claim theorems -/

/-- C2: `determine_weights` always returns two weights summing to `1.0`;
a query whose lowercased text contains a recency-intent keyword gets a
strictly larger dense (vector) weight with dense ≥ 0.6, and a query
containing none of the keywords — with or without character context —
gets a strictly larger lexical (BM25) weight. -/
theorem determine_weights_spec (query : String) (character_info : Option Metadata) :
    (determine_weights query character_info).sum = 1 ∧
    ((recencyKeywords.any fun k => pyIn k (strLower query)) = true →
      ∃ d l, determine_weights query character_info = [d, l] ∧ l < d ∧ (6 : ℚ)/10 ≤ d) ∧
    ((recencyKeywords.any fun k => pyIn k (strLower query)) = false →
      ∃ d l, determine_weights query character_info = [d, l] ∧ d < l) := by
  unfold determine_weights
  by_cases h : (recencyKeywords.any fun k => pyIn k (strLower query)) = true
  · rw [if_pos h]
    refine ⟨by norm_num, fun _ => ⟨7/10, 3/10, rfl, by norm_num, by norm_num⟩, fun hc => ?_⟩
    rw [h] at hc
    exact absurd hc (by simp)
  · rw [if_neg h]
    refine ⟨by norm_num, fun hc => absurd hc h, fun _ => ⟨3/10, 7/10, rfl, by norm_num⟩⟩

/-- Witness for C2: Scenario B's query `"최신 패치 내용"` (contains the
keyword `"최신"`) gets dense weight 0.7 ≥ 0.6; the keyword-free query
`"스킬트리"` gets the lexical-favoring weights. -/
theorem determine_weights_spec_witness :
    ((recencyKeywords.any fun k => pyIn k (strLower "최신 패치 내용")) = true ∧
      ∃ d l, determine_weights "최신 패치 내용" Option.none = [d, l] ∧ l < d ∧ (6 : ℚ)/10 ≤ d) ∧
    ((recencyKeywords.any fun k => pyIn k (strLower "스킬트리")) = false ∧
      ∃ d l, determine_weights "스킬트리" Option.none = [d, l] ∧ d < l) :=
  ⟨⟨by decide, (determine_weights_spec "최신 패치 내용" Option.none).2.1 (by decide)⟩,
   ⟨by decide, (determine_weights_spec "스킬트리" Option.none).2.2 (by decide)⟩⟩

/-- C7 counterexample: `format_docs_to_context_string` applied to the empty
document list returns the empty string, not a non-empty "no results"
placeholder — the claim is false at this input. -/
theorem format_docs_to_context_string_empty_counterexample :
    format_docs_to_context_string [] "내부" = "" := rfl

/-- C7 (amended): `format_docs_to_context_string` applied to an empty
document list returns the empty string; no "no results" placeholder is
substituted (the placeholder `"웹 검색 결과 없음."` exists only in the
separate web-search formatter). -/
theorem format_docs_to_context_string_empty (context_type : String) :
    format_docs_to_context_string [] context_type = "" := rfl

/-- C5: `load_or_create_cached_item` returns the deserialized cache content
without calling the factory when the file exists, is fresh, and loads; in
every other case (missing, expired, or failed deserialization) it returns
the factory's result, with the deserialization error swallowed and the
persistence outcome never affecting the returned value. -/
theorem load_or_create_cached_item_spec {α : Type} (fileExists : Bool) (fileAge expiry : ℚ)
    (loadOutcome : Except PyErr α) (creationResult : α) (saveOutcome : Except PyErr Unit) :
    (∀ v, fileExists = true → fileAge < expiry → loadOutcome = Except.ok v →
      load_or_create_cached_item fileExists fileAge expiry loadOutcome creationResult
        saveOutcome = (v, false)) ∧
    ((fileExists = false ∨ ¬ fileAge < expiry ∨ ∃ e, loadOutcome = Except.error e) →
      load_or_create_cached_item fileExists fileAge expiry loadOutcome creationResult
        saveOutcome = (creationResult, true)) := by
  unfold load_or_create_cached_item
  constructor
  · intro v hex hage hload
    rw [if_pos ⟨hex, hage⟩, hload]
  · rintro (hex | hage | ⟨e, herr⟩)
    · rw [if_neg]
      simp [hex]
    · rw [if_neg]
      simp [hage]
    · by_cases hc : fileExists = true ∧ fileAge < expiry
      · rw [if_pos hc, herr]
      · rw [if_neg hc]

/-- Witness for C5: a fresh, loadable cache file returns the cached value 42
without calling the factory; a missing file returns the factory's value 7. -/
theorem load_or_create_cached_item_spec_witness :
    (load_or_create_cached_item true 1 10 (Except.ok (42 : ℕ)) 7 (Except.ok ()) = (42, false)) ∧
    (load_or_create_cached_item false 1 10 (Except.ok (42 : ℕ)) 7 (Except.ok ()) = (7, true)) :=
  ⟨(load_or_create_cached_item_spec true 1 10 (Except.ok 42) 7 (Except.ok ())).1 42
      rfl (by norm_num) rfl,
   (load_or_create_cached_item_spec false 1 10 (Except.ok 42) 7 (Except.ok ())).2
      (Or.inl rfl)⟩

/-- C10: in a hybrid-search result not served from the cache, `all_docs` is
exactly `internal_docs ++ web_docs`, and `used_web_search` holds exactly
when `web_docs` is non-empty. -/
theorem hybrid_search_result_shape (query : String) (character_info : Option Metadata)
    (internalOutcome webOutcome : Except PyErr (List Document))
    (r : RAGService.HybridSearchResult)
    (h : RAGService.hybrid_search Option.none query character_info internalOutcome webOutcome
      = Except.ok r) :
    r.all_docs = r.internal_docs ++ r.web_docs ∧
    (r.used_web_search = true ↔ r.web_docs ≠ []) := by
  unfold RAGService.hybrid_search at h
  cases henh : RAGService.enhance_query_with_character query character_info with
  | error e => rw [henh] at h; exact absurd h (by simp)
  | ok s =>
    rw [henh] at h
    injection h with h
    subst h
    refine ⟨rfl, ?_⟩
    cases webOutcome with
    | ok l => cases l <;> simp
    | error e => simp

/-- Witness for C10 at a concrete non-cached call with one internal and one
web document (the record is what that call evaluates to). -/
theorem hybrid_search_result_shape_witness :
    ({ all_docs := [⟨"d", []⟩, ⟨"w", []⟩]
       internal_docs := [⟨"d", []⟩]
       web_docs := [⟨"w", []⟩]
       internal_context_provided_to_llm := "[내부 문서 1] d"
       web_context_provided_to_llm := "웹 검색 결과 없음."
       used_web_search := true
       enhanced_query := "q" } : RAGService.HybridSearchResult).all_docs =
      ({ all_docs := [⟨"d", []⟩, ⟨"w", []⟩]
         internal_docs := [⟨"d", []⟩]
         web_docs := [⟨"w", []⟩]
         internal_context_provided_to_llm := "[내부 문서 1] d"
         web_context_provided_to_llm := "웹 검색 결과 없음."
         used_web_search := true
         enhanced_query := "q" } : RAGService.HybridSearchResult).internal_docs ++
        ({ all_docs := [⟨"d", []⟩, ⟨"w", []⟩]
           internal_docs := [⟨"d", []⟩]
           web_docs := [⟨"w", []⟩]
           internal_context_provided_to_llm := "[내부 문서 1] d"
           web_context_provided_to_llm := "웹 검색 결과 없음."
           used_web_search := true
           enhanced_query := "q" } : RAGService.HybridSearchResult).web_docs ∧
    (({ all_docs := [⟨"d", []⟩, ⟨"w", []⟩]
        internal_docs := [⟨"d", []⟩]
        web_docs := [⟨"w", []⟩]
        internal_context_provided_to_llm := "[내부 문서 1] d"
        web_context_provided_to_llm := "웹 검색 결과 없음."
        used_web_search := true
        enhanced_query := "q" } : RAGService.HybridSearchResult).used_web_search = true ↔
      ({ all_docs := [⟨"d", []⟩, ⟨"w", []⟩]
         internal_docs := [⟨"d", []⟩]
         web_docs := [⟨"w", []⟩]
         internal_context_provided_to_llm := "[내부 문서 1] d"
         web_context_provided_to_llm := "웹 검색 결과 없음."
         used_web_search := true
         enhanced_query := "q" } : RAGService.HybridSearchResult).web_docs ≠ []) :=
  hybrid_search_result_shape "q" Option.none (Except.ok [⟨"d", []⟩])
    (Except.ok [⟨"w", []⟩]) _ rfl

/-- C1: graceful degradation of the web branch.  When the result cache
misses, query enhancement succeeds, and the web branch raises any
exception, `_hybrid_search` still returns a normal (`Except.ok`) result in
which `web_docs = []`, `used_web_search = false`, and the internal branch's
document list is used unchanged (it is `internal_docs` and all of
`all_docs`). -/
theorem hybrid_search_web_failure_degrades (query : String) (character_info : Option Metadata)
    (internal_docs : List Document) (e : PyErr) (s : String)
    (henh : RAGService.enhance_query_with_character query character_info = Except.ok s) :
    (RAGService.hybrid_search Option.none query character_info
        (Except.ok internal_docs) (Except.error e)).map
        (fun r => (r.internal_docs, r.web_docs, r.used_web_search, r.all_docs)) =
      Except.ok (internal_docs, [], false, internal_docs) := by
  unfold RAGService.hybrid_search
  rw [henh]
  simp [Except.map]

/-- Witness for C1: Scenario D — web-search branch always raising, query
`"Y"` with no character context. -/
theorem hybrid_search_web_failure_degrades_witness :
    (RAGService.hybrid_search Option.none "Y" Option.none
        (Except.ok [⟨"d", []⟩]) (Except.error PyErr.typeError)).map
        (fun r => (r.internal_docs, r.web_docs, r.used_web_search, r.all_docs)) =
      Except.ok ([⟨"d", []⟩], [], false, [⟨"d", []⟩]) :=
  hybrid_search_web_failure_degrades "Y" Option.none [⟨"d", []⟩] PyErr.typeError "Y" rfl

/-- An `Except` value with decidable-equality payloads has decidable
equality (needed to evaluate concrete cache-key facts). -/
instance {ε α : Type} [DecidableEq ε] [DecidableEq α] : DecidableEq (Except ε α) := fun a b =>
  match a, b with
  | Except.ok x, Except.ok y =>
    if h : x = y then Decidable.isTrue (by rw [h])
    else Decidable.isFalse (by intro hc; injection hc; contradiction)
  | Except.error x, Except.error y =>
    if h : x = y then Decidable.isTrue (by rw [h])
    else Decidable.isFalse (by intro hc; injection hc; contradiction)
  | Except.ok _, Except.error _ => Decidable.isFalse (fun hc => Except.noConfusion hc)
  | Except.error _, Except.ok _ => Decidable.isFalse (fun hc => Except.noConfusion hc)

/-- The per-context branch of `cache_key_input`, expressed through
`char_projection` (an empty dict has the empty projection, so the falsy-dict
shortcut agrees with the projection path). -/
theorem cache_key_input_by_proj (base : String) (ci : Metadata) :
    cache_key_input base (Option.some ci) =
      match char_projection ci with
      | Except.error e => Except.error e
      | Except.ok p => if p == "" then Except.ok base else Except.ok (base ++ "|" ++ p) := by
  by_cases hemp : ci.isEmpty = true
  · rw [List.isEmpty_iff] at hemp
    subst hemp
    rfl
  · simp only [cache_key_input]
    rw [if_neg hemp]

/-- `char_projection` depends only on the `job` and `fame` lookups. -/
theorem char_projection_congr {ci1 ci2 : Metadata}
    (hjob : mget ci1 "job" (PyVal.str "") = mget ci2 "job" (PyVal.str ""))
    (hfame : mget ci1 "fame" (PyVal.str "") = mget ci2 "fame" (PyVal.str "")) :
    char_projection ci1 = char_projection ci2 := by
  unfold char_projection
  rw [hjob, hfame]

/-- Equal hash inputs give equal keys, whatever the digest function. -/
theorem generate_cache_key_congr (md5hex : String → String) (base : String)
    {c1 c2 : Option Metadata} (h : cache_key_input base c1 = cache_key_input base c2) :
    generate_cache_key md5hex base c1 = generate_cache_key md5hex base c2 := by
  unfold generate_cache_key
  rw [h]

/-- C6 counterexample: the contexts `{'job': 'a'}` and `{'fame': 'a'}`
differ in their job field and in their fame field, yet
`generate_cache_key` hashes the identical input string (`"q|a"`) for both,
because `"-".join(filter(None, ...))` collapses which slot a part came
from.  This refutes the claim's final conjunct ("contexts differing in job
or fame hash a different input"). -/
theorem generate_cache_key_collision_counterexample :
    cache_key_input "q" (Option.some [("job", PyVal.str "a")]) =
      cache_key_input "q" (Option.some [("fame", PyVal.str "a")]) ∧
    mget [("job", PyVal.str "a")] "job" (PyVal.str "") ≠
      mget [("fame", PyVal.str "a")] "job" (PyVal.str "") ∧
    mget [("job", PyVal.str "a")] "fame" (PyVal.str "") ≠
      mget [("fame", PyVal.str "a")] "fame" (PyVal.str "") := by
  decide

/-- C6 (amended): `generate_cache_key` is a deterministic function of the
base content and only the job/fame projection of the context: contexts
agreeing on their `job` and `fame` lookups produce the identical key
(whatever their other fields and whatever the digest function); a context
without `job` and `fame` keys produces the same key as no context at all;
and contexts whose derived `job`/`fame` projection strings differ hash a
different input string (contexts differing in job or fame can still share
a projection, per the counterexample). -/
theorem generate_cache_key_spec (md5hex : String → String) (base : String) :
    (∀ ci1 ci2 : Metadata,
      mget ci1 "job" (PyVal.str "") = mget ci2 "job" (PyVal.str "") →
      mget ci1 "fame" (PyVal.str "") = mget ci2 "fame" (PyVal.str "") →
      generate_cache_key md5hex base (Option.some ci1) =
        generate_cache_key md5hex base (Option.some ci2)) ∧
    (∀ ci : Metadata, ci.lookup "job" = Option.none → ci.lookup "fame" = Option.none →
      generate_cache_key md5hex base (Option.some ci) =
        generate_cache_key md5hex base Option.none) ∧
    (∀ (ci1 ci2 : Metadata) (p1 p2 : String),
      char_projection ci1 = Except.ok p1 → char_projection ci2 = Except.ok p2 → p1 ≠ p2 →
      cache_key_input base (Option.some ci1) ≠ cache_key_input base (Option.some ci2)) := by
  have hlen : ∀ q : String, ¬ (q == "") = true → 0 < q.length := by
    intro q hq
    cases q with
    | mk d =>
      cases d with
      | nil => exact absurd (by decide) hq
      | cons a l => simp [String.length]
  refine ⟨?_, ?_, ?_⟩
  · intro ci1 ci2 hjob hfame
    refine generate_cache_key_congr md5hex base ?_
    rw [cache_key_input_by_proj, cache_key_input_by_proj, char_projection_congr hjob hfame]
  · intro ci hjob hfame
    refine generate_cache_key_congr md5hex base ?_
    rw [cache_key_input_by_proj]
    have hproj : char_projection ci = Except.ok "" := by
      unfold char_projection
      unfold mget
      rw [hjob, hfame]
      rfl
    rw [hproj]
    rfl
  · intro ci1 ci2 p1 p2 h1 h2 hne
    rw [cache_key_input_by_proj, cache_key_input_by_proj, h1, h2]
    show (if p1 == "" then Except.ok base else Except.ok (base ++ "|" ++ p1)) ≠
      (if p2 == "" then Except.ok base else Except.ok (base ++ "|" ++ p2))
    by_cases e1 : (p1 == "") = true
    · by_cases e2 : (p2 == "") = true
      · exact absurd ((by simpa using e1 : p1 = "").trans (by simpa using e2 : p2 = "").symm) hne
      · rw [if_pos e1, if_neg e2]
        intro hcontra
        injection hcontra with hcontra
        have hL := congrArg String.length hcontra
        rw [String.length_append, String.length_append] at hL
        have := hlen p2 e2
        omega
    · by_cases e2 : (p2 == "") = true
      · rw [if_neg e1, if_pos e2]
        intro hcontra
        injection hcontra with hcontra
        have hL := congrArg String.length hcontra
        rw [String.length_append, String.length_append] at hL
        have := hlen p1 e1
        omega
      · rw [if_neg e1, if_neg e2]
        intro hcontra
        injection hcontra with hcontra
        have hdata := congrArg String.data hcontra
        rw [String.data_append, String.data_append, String.data_append,
          String.data_append, List.append_assoc, List.append_assoc] at hdata
        have hs : p1.data = p2.data :=
          List.append_cancel_left (List.append_cancel_left hdata)
        exact hne (by cases p1; cases p2; exact congrArg String.mk hs)

/-- Witness for C6 (amended): a context with an extra `weapon` field keys
identically to one without it; a job/fame-free context keys like no
context; the projections `"a"` and `"b"` hash different inputs. -/
theorem generate_cache_key_spec_witness :
    (generate_cache_key id "q" (Option.some [("job", PyVal.str "a"), ("weapon", PyVal.str "w")]) =
      generate_cache_key id "q" (Option.some [("job", PyVal.str "a")])) ∧
    (generate_cache_key id "q" (Option.some [("weapon", PyVal.str "w")]) =
      generate_cache_key id "q" Option.none) ∧
    (cache_key_input "q" (Option.some [("job", PyVal.str "a")]) ≠
      cache_key_input "q" (Option.some [("job", PyVal.str "b")])) :=
  ⟨(generate_cache_key_spec id "q").1 [("job", PyVal.str "a"), ("weapon", PyVal.str "w")]
      [("job", PyVal.str "a")] (by decide) (by decide),
   (generate_cache_key_spec id "q").2.1 [("weapon", PyVal.str "w")] (by decide) (by decide),
   (generate_cache_key_spec id "q").2.2 [("job", PyVal.str "a")] [("job", PyVal.str "b")]
      "a" "b" (by decide) (by decide) (by decide)⟩

/-- C8 counterexample: for a corpus document with both a `title` and a
`class_name`, the structured factory (`SearcherFactory`, used by
`StructuredRAGService`) indexes `"C\nX"` — the title `"T"` is not prepended
(it appears nowhere in the indexed text); and the legacy
`RAGService` variant indexes `"제목: T\nX\n직업: C"` — the class name is
appended, not prepended.  Each cited implementation violates one half of
the claimed enrichment. -/
theorem create_bm25_enrichment_counterexample :
    (create_bm25_data_from_vectordb ["X"]
        [[("title", PyVal.str "T"), ("class_name", PyVal.str "C")]]).map
      Document.page_content = ["C\nX"] ∧
    pyIn "T" "C\nX" = false ∧
    (RAGService.create_bm25_data_from_vectordb_legacy ["X"]
        [[("title", PyVal.str "T"), ("class_name", PyVal.str "C")]]).map
      Document.page_content = ["제목: T\nX\n직업: C"] ∧
    listStartsWith "C".data "제목: T\nX\n직업: C".data = false := by
  decide

/-- The enrichment formula of the amended C8, written as the claim states
it: truthy `class_name` prepended exactly once on its own line, the raw
chunk text, and the `"추천문서"` marker appended when the quality score
parses to a float above 3.0; `title` is not used. -/
def bm25_enriched_spec (txt : String) (meta : Metadata) : String :=
  (if pyTruthy (mget0 meta "class_name") then pyStr (mget0 meta "class_name") ++ "\n" else "") ++
  txt ++
  (match pyFloat (mget meta "quality_score" (PyVal.float 0)) with
   | Except.ok q => if 3 < q then "\n추천문서" else ""
   | Except.error _ => "")

/-- C8 (amended): for every corpus dump, the text fed into the BM25 index by
`SearcherFactory.create_bm25_data_from_vectordb` is the raw chunk text with
the document's truthy `class_name` prepended exactly once as its own line
and the literal `"추천문서"` appended when `quality_score` parses as a
float greater than 3.0; the `title` is not included; the document's
metadata is kept unchanged.  The enriched text, not the raw content, is
indexed. -/
theorem create_bm25_data_enrichment (storeTexts : List String) (storeMetas : List Metadata) :
    create_bm25_data_from_vectordb storeTexts storeMetas =
      (storeTexts.zip storeMetas).map fun p =>
        { page_content := bm25_enriched_spec p.1 p.2, metadata := p.2 } := by
  unfold create_bm25_data_from_vectordb
  refine List.map_congr_left fun p _ => ?_
  have hcontent : ∀ txt meta, enrich_bm25_content txt meta = bm25_enriched_spec txt meta := by
    intro txt meta
    unfold enrich_bm25_content bm25_enriched_spec
    by_cases hemp : meta.isEmpty = true
    · rw [List.isEmpty_iff] at hemp
      subst hemp
      show txt = "" ++ txt ++ ""
      simp
    · rw [if_neg hemp]
      cases hq : pyFloat (mget meta "quality_score" (PyVal.float 0)) with
      | ok q =>
        simp only [hq]
        by_cases hclass : pyTruthy (mget0 meta "class_name") = true
        · by_cases h3 : (3 : ℚ) < q
          · simp [hclass, h3, String.append_assoc]
          · simp [hclass, h3]
        · rw [Bool.not_eq_true] at hclass
          by_cases h3 : (3 : ℚ) < q
          · simp [hclass, h3]
          · simp [hclass, h3]
      | error e =>
        simp only [hq]
        by_cases hclass : pyTruthy (mget0 meta "class_name") = true
        · simp [hclass, String.append_assoc]
        · rw [Bool.not_eq_true] at hclass
          simp [hclass]
  rw [hcontent]

/-- C4: the claim says rescoring "never raises an exception" even for an
arbitrarily-typed (e.g. `None`) `quality_score`, and the spec's
error-handling section, along with the sibling
`SearcherFactory.create_bm25_data_from_vectordb` (which catches
`(ValueError, TypeError)`), shows tolerance was the intent — but
`MetadataAwareRetriever.get_relevant_documents` catches only `ValueError`,
so `float(None)` raises an uncaught `TypeError` (first conjunct).  The
claim's remaining parts do hold: an unparsable string quality score
contributes zero, a missing `class_name` skips the bonus, and no document
is dropped (second conjunct evaluates a two-document candidate list with
malformed metadata to the full, stably-ordered output). -/
theorem rescore_none_quality_raises :
    MetadataAwareRetriever.get_relevant_documents [] 40 "q"
        [⟨"x", [("quality_score", PyVal.none)]⟩] = Except.error PyErr.typeError ∧
    MetadataAwareRetriever.get_relevant_documents [] 40 "q"
        [⟨"x", [("quality_score", PyVal.str "not-a-number")]⟩, ⟨"y", []⟩] =
      Except.ok [⟨"x", [("quality_score", PyVal.str "not-a-number")]⟩, ⟨"y", []⟩] := by
  constructor
  · decide
  · have hsx : score_document [] "q" ⟨"x", [("quality_score", PyVal.str "not-a-number")]⟩ =
        Except.ok 1 := by
      have hc : class_name_term (find_job_in_text [] (strLower "q"))
          ((pySplit (strLower "q")).dedup) [("quality_score", PyVal.str "not-a-number")] =
          Except.ok 0 := by decide
      have ht : title_term (find_job_in_text [] (strLower "q"))
          ((pySplit (strLower "q")).dedup) [("quality_score", PyVal.str "not-a-number")] =
          Except.ok 0 := by decide
      have hq : quality_term [("quality_score", PyVal.str "not-a-number")] = Except.ok 0 := by
        decide
      have hcont : content_term (find_job_in_text [] (strLower "q")) "x" = 0 := by decide
      simp only [score_document, hc, ht, hq, hcont]
      norm_num
    have hsy : score_document [] "q" ⟨"y", []⟩ = Except.ok 1 := by
      have hc : class_name_term (find_job_in_text [] (strLower "q"))
          ((pySplit (strLower "q")).dedup) [] = Except.ok 0 := by decide
      have ht : title_term (find_job_in_text [] (strLower "q"))
          ((pySplit (strLower "q")).dedup) [] = Except.ok 0 := by decide
      have hq : quality_term [] = Except.ok (min (0 * (2/10)) 1) := rfl
      have hcont : content_term (find_job_in_text [] (strLower "q")) "y" = 0 := by decide
      simp only [score_document, hc, ht, hq, hcont]
      norm_num
    have hall : score_all [] "q"
        [⟨"x", [("quality_score", PyVal.str "not-a-number")]⟩, ⟨"y", []⟩] =
        Except.ok [(⟨"x", [("quality_score", PyVal.str "not-a-number")]⟩, 1), (⟨"y", []⟩, 1)] := by
      simp [score_all, hsx, hsy]
    have hge : scoredGE (⟨"x", [("quality_score", PyVal.str "not-a-number")]⟩, (1 : ℚ))
        (⟨"y", []⟩, 1) := by
      unfold scoredGE
      norm_num
    have hsort : List.insertionSort scoredGE
        [(⟨"x", [("quality_score", PyVal.str "not-a-number")]⟩, (1 : ℚ)), (⟨"y", []⟩, 1)] =
        [(⟨"x", [("quality_score", PyVal.str "not-a-number")]⟩, (1 : ℚ)), (⟨"y", []⟩, 1)] := by
      simp only [List.insertionSort, List.orderedInsert]
      rw [if_pos hge]
    simp [MetadataAwareRetriever.get_relevant_documents, hall, hsort]
    rw [if_pos hge]
    rfl

/-! ## Machinery for the re-scorer invariants (C3, C9) -/

/-- The score `get_relevant_documents` computes for a document, as a total
function (only used to state properties of runs where scoring succeeded). -/
def scoreVal (jobs : List (String × String)) (query : String) (d : Document) : ℚ :=
  match score_document jobs query d with
  | Except.ok s => s
  | Except.error _ => 0

theorem score_all_map_fst {jobs : List (String × String)} {query : String}
    {docs : List Document} {scored : List (Document × ℚ)}
    (h : score_all jobs query docs = Except.ok scored) :
    scored.map Prod.fst = docs := by
  induction docs generalizing scored with
  | nil =>
    unfold score_all at h
    injection h with h
    subst h
    rfl
  | cons d ds ih =>
    unfold score_all at h
    cases hd : score_document jobs query d with
    | error e => rw [hd] at h; exact absurd h (by simp)
    | ok s =>
      rw [hd] at h
      cases hrest : score_all jobs query ds with
      | error e => rw [hrest] at h; exact absurd h (by simp)
      | ok rest =>
        rw [hrest] at h
        injection h with h
        subst h
        simp [ih hrest]

theorem score_all_mem {jobs : List (String × String)} {query : String}
    {docs : List Document} {scored : List (Document × ℚ)}
    (h : score_all jobs query docs = Except.ok scored) :
    ∀ p ∈ scored, score_document jobs query p.1 = Except.ok p.2 := by
  induction docs generalizing scored with
  | nil =>
    unfold score_all at h
    injection h with h
    subst h
    intro p hp
    exact absurd hp (by simp)
  | cons d ds ih =>
    unfold score_all at h
    cases hd : score_document jobs query d with
    | error e => rw [hd] at h; exact absurd h (by simp)
    | ok s =>
      rw [hd] at h
      cases hrest : score_all jobs query ds with
      | error e => rw [hrest] at h; exact absurd h (by simp)
      | ok rest =>
        rw [hrest] at h
        injection h with h
        subst h
        intro p hp
        rcases List.mem_cons.mp hp with hph | hpt
        · subst hph; exact hd
        · exact ih hrest p hpt

theorem score_all_get? {jobs : List (String × String)} {query : String}
    {docs : List Document} {scored : List (Document × ℚ)}
    (h : score_all jobs query docs = Except.ok scored) :
    ∀ i p, scored.get? i = Option.some p → docs.get? i = Option.some p.1 := by
  intro i p hp
  have hm := score_all_map_fst h
  subst hm
  rw [List.get?_map, hp]
  rfl

theorem scoreVal_of_mem {jobs : List (String × String)} {query : String}
    {docs : List Document} {scored : List (Document × ℚ)}
    (h : score_all jobs query docs = Except.ok scored) :
    ∀ p ∈ scored, p.2 = scoreVal jobs query p.1 := by
  intro p hp
  unfold scoreVal
  rw [score_all_mem h p hp]

/-- Tag list elements with their positions, starting at `k`. -/
def tagIdx {α : Type} : List α → ℕ → List (α × ℕ)
  | [], _ => []
  | x :: xs, k => (x, k) :: tagIdx xs (k + 1)

theorem tagIdx_map_fst {α : Type} (l : List α) (k : ℕ) :
    (tagIdx l k).map Prod.fst = l := by
  induction l generalizing k with
  | nil => rfl
  | cons x xs ih => simp [tagIdx, ih]

theorem tagIdx_mem {α : Type} {l : List α} {k : ℕ} :
    ∀ p ∈ tagIdx l k, k ≤ p.2 ∧ l.get? (p.2 - k) = Option.some p.1 := by
  induction l generalizing k with
  | nil => intro p hp; exact absurd hp (by simp [tagIdx])
  | cons x xs ih =>
    intro p hp
    rcases List.mem_cons.mp hp with hph | hpt
    · subst hph
      exact ⟨le_refl k, by simp⟩
    · obtain ⟨hk, hget⟩ := ih p hpt
      refine ⟨le_trans (Nat.le_succ k) hk, ?_⟩
      have hpos : p.2 - k = (p.2 - (k + 1)) + 1 := by omega
      rw [hpos]
      simpa using hget

theorem tagIdx_nodup {α : Type} (l : List α) (k : ℕ) : (tagIdx l k).Nodup := by
  induction l generalizing k with
  | nil => simp [tagIdx]
  | cons x xs ih =>
    refine List.nodup_cons.mpr ⟨?_, ih (k + 1)⟩
    intro hmem
    have := (tagIdx_mem (x, k) hmem).1
    omega

/-- The order in which Python's stable sort arranges the index-tagged scored
candidates: strictly larger score first, ties broken by original position. -/
def taggedRel (a b : (Document × ℚ) × ℕ) : Prop :=
  b.1.2 < a.1.2 ∨ (a.1.2 = b.1.2 ∧ a.2 ≤ b.2)

instance : DecidableRel taggedRel := fun a b => by
  unfold taggedRel
  infer_instance

instance : IsTotal ((Document × ℚ) × ℕ) taggedRel := by
  refine ⟨fun a b => ?_⟩
  unfold taggedRel
  rcases lt_trichotomy a.1.2 b.1.2 with h | h | h
  · exact Or.inr (Or.inl h)
  · rcases le_total a.2 b.2 with h2 | h2
    · exact Or.inl (Or.inr ⟨h, h2⟩)
    · exact Or.inr (Or.inr ⟨h.symm, h2⟩)
  · exact Or.inl (Or.inl h)

instance : IsTrans ((Document × ℚ) × ℕ) taggedRel := by
  refine ⟨fun a b c hab hbc => ?_⟩
  unfold taggedRel at hab hbc ⊢
  rcases hab with h1 | ⟨he1, hi1⟩
  · rcases hbc with h2 | ⟨he2, _⟩
    · exact Or.inl (lt_trans h2 h1)
    · exact Or.inl (he2 ▸ h1)
  · rcases hbc with h2 | ⟨he2, hi2⟩
    · exact Or.inl (he1 ▸ h2)
    · exact Or.inr ⟨he1.trans he2, le_trans hi1 hi2⟩

/-- On a tail whose tags all exceed the tag of the inserted element,
ordered insertion by `taggedRel` mirrors ordered insertion by score alone,
because ties are then resolved toward the smaller (inserted) tag. -/
theorem orderedInsert_tag_comm (x : Document × ℚ) (k : ℕ)
    (m : List ((Document × ℚ) × ℕ)) (hk : ∀ p ∈ m, k < p.2) :
    (List.orderedInsert taggedRel (x, k) m).map Prod.fst =
      List.orderedInsert scoredGE x (m.map Prod.fst) := by
  induction m with
  | nil => rfl
  | cons p ps ih =>
    have hkp : k < p.2 := hk p (by simp)
    have hcond : taggedRel (x, k) p ↔ scoredGE x p.1 := by
      unfold taggedRel scoredGE
      constructor
      · rintro (h | ⟨he, _⟩)
        · exact le_of_lt h
        · exact le_of_eq he.symm
      · intro h
        rcases lt_or_eq_of_le h with hlt | heq
        · exact Or.inl hlt
        · exact Or.inr ⟨heq.symm, le_of_lt hkp⟩
    by_cases hc : taggedRel (x, k) p
    · simp only [List.orderedInsert, List.map_cons]
      rw [if_pos hc, if_pos (hcond.mp hc)]
      rfl
    · simp only [List.orderedInsert, List.map_cons]
      rw [if_neg hc, if_neg (fun h => hc (hcond.mpr h))]
      have ihh := ih fun q hq => hk q (by simp [hq])
      simp [ihh]

/-- Stable sorting of the tagged scored list projects to the untagged
descending-score insertion sort. -/
theorem insertionSort_tag_comm (l : List (Document × ℚ)) (k : ℕ) :
    (List.insertionSort taggedRel (tagIdx l k)).map Prod.fst =
      List.insertionSort scoredGE l := by
  induction l generalizing k with
  | nil => rfl
  | cons x xs ih =>
    show (List.insertionSort taggedRel ((x, k) :: tagIdx xs (k + 1))).map Prod.fst = _
    simp only [List.insertionSort]
    have hk : ∀ p ∈ List.insertionSort taggedRel (tagIdx xs (k + 1)), k < p.2 := by
      intro p hp
      have hmem : p ∈ tagIdx xs (k + 1) := (List.mem_insertionSort taggedRel).mp hp
      have := (tagIdx_mem p hmem).1
      omega
    rw [orderedInsert_tag_comm x k _ hk, ih (k + 1)]

/-- A successful `get_relevant_documents` run is the stable descending sort
of the scored candidates, truncated and projected. -/
theorem grd_structure {jobs : List (String × String)} {top_n : ℕ} {query : String}
    {docs out : List Document}
    (h : MetadataAwareRetriever.get_relevant_documents jobs top_n query docs = Except.ok out) :
    ∃ scored, score_all jobs query docs = Except.ok scored ∧
      out = ((List.insertionSort scoredGE scored).take top_n).map Prod.fst := by
  unfold MetadataAwareRetriever.get_relevant_documents at h
  cases hall : score_all jobs query docs with
  | error e => rw [hall] at h; exact absurd h (by simp)
  | ok scored =>
    rw [hall] at h
    injection h with h
    exact ⟨scored, rfl, h.symm⟩

theorem grd_out_subperm {jobs : List (String × String)} {top_n : ℕ} {query : String}
    {docs : List Document} {scored : List (Document × ℚ)}
    (hall : score_all jobs query docs = Except.ok scored) :
    (((List.insertionSort scoredGE scored).take top_n).map Prod.fst).Subperm docs := by
  have hperm : (List.insertionSort scoredGE scored).Perm scored :=
    List.perm_insertionSort scoredGE scored
  have h2 : (((List.insertionSort scoredGE scored).take top_n).map Prod.fst).Sublist
      ((List.insertionSort scoredGE scored).map Prod.fst) :=
    List.Sublist.map Prod.fst (List.take_sublist top_n _)
  have h3 : ((List.insertionSort scoredGE scored).map Prod.fst).Perm docs :=
    score_all_map_fst hall ▸ hperm.map Prod.fst
  exact h2.subperm.trans h3.subperm

theorem grd_out_length {jobs : List (String × String)} {top_n : ℕ} {query : String}
    {docs : List Document} {scored : List (Document × ℚ)}
    (hall : score_all jobs query docs = Except.ok scored) :
    (((List.insertionSort scoredGE scored).take top_n).map Prod.fst).length =
      min top_n docs.length := by
  rw [List.length_map, List.length_take, List.length_insertionSort,
    ← score_all_map_fst hall, List.length_map]

theorem grd_out_sorted {jobs : List (String × String)} {top_n : ℕ} {query : String}
    {docs : List Document} {scored : List (Document × ℚ)}
    (hall : score_all jobs query docs = Except.ok scored) :
    (((List.insertionSort scoredGE scored).take top_n).map Prod.fst).Pairwise
      (fun d1 d2 => scoreVal jobs query d2 ≤ scoreVal jobs query d1) := by
  have hpw : (List.insertionSort scoredGE scored).Pairwise scoredGE :=
    List.sorted_insertionSort scoredGE scored
  have hpw_take : ((List.insertionSort scoredGE scored).take top_n).Pairwise scoredGE :=
    List.Pairwise.sublist (List.take_sublist top_n _) hpw
  rw [List.pairwise_map]
  refine List.Pairwise.imp_of_mem ?_ hpw_take
  intro p q hp hq hrel
  have hp' : p ∈ scored :=
    (List.mem_insertionSort scoredGE).mp (List.mem_of_mem_take hp)
  have hq' : q ∈ scored :=
    (List.mem_insertionSort scoredGE).mp (List.mem_of_mem_take hq)
  rw [← scoreVal_of_mem hall p hp', ← scoreVal_of_mem hall q hq']
  exact hrel

theorem grd_out_stable {jobs : List (String × String)} {top_n : ℕ} {query : String}
    {docs : List Document} {scored : List (Document × ℚ)}
    (hall : score_all jobs query docs = Except.ok scored) :
    (((List.insertionSort scoredGE scored).take top_n).map Prod.fst).Pairwise
      (fun d1 d2 => scoreVal jobs query d1 = scoreVal jobs query d2 →
        ∃ i j, i < j ∧ docs.get? i = Option.some d1 ∧ docs.get? j = Option.some d2) := by
  have hcomm := insertionSort_tag_comm scored 0
  rw [← hcomm, ← List.map_take, List.map_map]
  have hpwT : (List.insertionSort taggedRel (tagIdx scored 0)).Pairwise taggedRel :=
    List.sorted_insertionSort taggedRel (tagIdx scored 0)
  have hnd : (List.insertionSort taggedRel (tagIdx scored 0)).Nodup :=
    ((List.perm_insertionSort taggedRel (tagIdx scored 0)).nodup_iff).mpr
      (tagIdx_nodup scored 0)
  have hboth := List.Pairwise.and hpwT hnd
  have hboth_take := List.Pairwise.sublist (List.take_sublist top_n _) hboth
  rw [List.pairwise_map]
  refine List.Pairwise.imp_of_mem ?_ hboth_take
  intro a b ha hb hrel
  obtain ⟨harel, hane⟩ := hrel
  intro heq
  simp only [Function.comp_apply] at heq
  have haT : a ∈ tagIdx scored 0 :=
    (List.mem_insertionSort taggedRel).mp (List.mem_of_mem_take ha)
  have hbT : b ∈ tagIdx scored 0 :=
    (List.mem_insertionSort taggedRel).mp (List.mem_of_mem_take hb)
  have hga : scored.get? a.2 = Option.some a.1 := by
    have := (tagIdx_mem a haT).2
    simpa using this
  have hgb : scored.get? b.2 = Option.some b.1 := by
    have := (tagIdx_mem b hbT).2
    simpa using this
  have hsa : a.1.2 = scoreVal jobs query a.1.1 :=
    scoreVal_of_mem hall a.1 (List.get?_mem hga)
  have hsb : b.1.2 = scoreVal jobs query b.1.1 :=
    scoreVal_of_mem hall b.1 (List.get?_mem hgb)
  have hscore_eq : a.1.2 = b.1.2 := by rw [hsa, hsb, heq]
  have hle : a.2 ≤ b.2 := by
    rcases harel with hlt | ⟨_, hle⟩
    · exact absurd hlt (by rw [hscore_eq]; exact lt_irrefl _)
    · exact hle
  have hlt : a.2 < b.2 := by
    rcases lt_or_eq_of_le hle with hlt | heqi
    · exact hlt
    · exfalso
      apply hane
      have : a.1 = b.1 := by
        rw [heqi] at hga
        rw [hga] at hgb
        injection hgb
      calc a = (a.1, a.2) := rfl
        _ = (b.1, b.2) := by rw [this, heqi]
        _ = b := rfl
  exact ⟨a.2, b.2, hlt, score_all_get? hall a.2 a.1 hga, score_all_get? hall b.2 b.1 hgb⟩

/-- C9 counterexample: `get_relevant_documents` does not return a list for
every base-retriever output — a candidate whose `quality_score` is `None`
makes scoring raise `TypeError` (only `ValueError` is caught), so at this
input there is no returned sub-multiset of length `min(top_n, 1) = 1`. -/
theorem get_relevant_documents_raises_counterexample :
    MetadataAwareRetriever.get_relevant_documents [] 40 "c9-query"
      [⟨"c9-doc", [("quality_score", PyVal.none)]⟩] = Except.error PyErr.typeError := by
  decide

/-- C9 (amended): whenever `get_relevant_documents` returns (scoring raised
no exception), the returned list is a sub-multiset of the base retriever's
documents (nothing fabricated or mutated), of length exactly
`min(top_n, |docs|)`, ordered by non-increasing final score, and stable:
two returned documents with equal scores occur in the order in which the
base retriever produced them. -/
theorem get_relevant_documents_invariants (jobs : List (String × String)) (top_n : ℕ)
    (query : String) (docs out : List Document)
    (h : MetadataAwareRetriever.get_relevant_documents jobs top_n query docs = Except.ok out) :
    out.Subperm docs ∧
    out.length = min top_n docs.length ∧
    out.Pairwise (fun d1 d2 => scoreVal jobs query d2 ≤ scoreVal jobs query d1) ∧
    out.Pairwise (fun d1 d2 => scoreVal jobs query d1 = scoreVal jobs query d2 →
      ∃ i j, i < j ∧ docs.get? i = Option.some d1 ∧ docs.get? j = Option.some d2) := by
  obtain ⟨scored, hall, hout⟩ := grd_structure h
  subst hout
  exact ⟨grd_out_subperm hall, grd_out_length hall, grd_out_sorted hall, grd_out_stable hall⟩

/-- Witness for C9 (amended) at a concrete single-document run (no score
exception, so the call returns and all four invariants hold). -/
theorem get_relevant_documents_invariants_witness :
    ([⟨"z", []⟩] : List Document).Subperm [⟨"z", []⟩] ∧
    ([⟨"z", []⟩] : List Document).length = min 40 ([⟨"z", []⟩] : List Document).length ∧
    ([⟨"z", []⟩] : List Document).Pairwise
      (fun d1 d2 => scoreVal [] "wq" d2 ≤ scoreVal [] "wq" d1) ∧
    ([⟨"z", []⟩] : List Document).Pairwise
      (fun d1 d2 => scoreVal [] "wq" d1 = scoreVal [] "wq" d2 →
        ∃ i j, i < j ∧ ([⟨"z", []⟩] : List Document).get? i = Option.some d1 ∧
          ([⟨"z", []⟩] : List Document).get? j = Option.some d2) :=
  get_relevant_documents_invariants [] 40 "wq" [⟨"z", []⟩] [⟨"z", []⟩] rfl

/-- A truthy string `class_name` containing the detected job gets the full
`+10.0` class bonus. -/
theorem class_name_term_match {j : String} {qwords : List String} {meta : Metadata} {c : String}
    (hj : j ≠ "") (hcm : mget meta "class_name" (PyVal.str "") = PyVal.str c)
    (hcne : c ≠ "") (hin : pyIn j (strLower c) = true) :
    class_name_term (Option.some j) qwords meta = Except.ok 10 := by
  simp only [class_name_term, hcm]
  simp [pyTruthy, hcne, hj, hin]

/-- A document whose `class_name` does not contain the detected job gets a
class term of at most `+3.0` (whenever the term evaluates at all). -/
theorem class_name_term_le3 {j : String} {qwords : List String} {meta : Metadata} {c2v : ℚ}
    (h : class_name_term (Option.some j) qwords meta = Except.ok c2v)
    (hnm : ∀ c, mget meta "class_name" (PyVal.str "") = PyVal.str c →
      pyIn j (strLower c) = false) :
    c2v ≤ 3 := by
  cases hv : mget meta "class_name" (PyVal.str "") with
  | str c =>
    by_cases hce : c = ""
    · subst hce
      simp only [class_name_term, hv] at h
      simp [pyTruthy] at h
      linarith
    · have hfalse := hnm c hv
      simp only [class_name_term, hv] at h
      simp [pyTruthy, hce, hfalse] at h
      split at h <;> (injection h with h; linarith)
  | none =>
    simp only [class_name_term, hv] at h
    simp [pyTruthy] at h
    linarith
  | int n =>
    by_cases htr : pyTruthy (PyVal.int n) = true
    · simp only [class_name_term, hv] at h
      simp [htr] at h
    · rw [Bool.not_eq_true] at htr
      simp only [class_name_term, hv] at h
      simp [htr] at h
      linarith
  | float q =>
    by_cases htr : pyTruthy (PyVal.float q) = true
    · simp only [class_name_term, hv] at h
      simp [htr] at h
    · rw [Bool.not_eq_true] at htr
      simp only [class_name_term, hv] at h
      simp [htr] at h
      linarith
  | bool b =>
    by_cases htr : pyTruthy (PyVal.bool b) = true
    · simp only [class_name_term, hv] at h
      simp [htr] at h
    · rw [Bool.not_eq_true] at htr
      simp only [class_name_term, hv] at h
      simp [htr] at h
      linarith

/-- The title term only reads the `title` lookup. -/
theorem title_term_congr {job : Option String} {qwords : List String} {meta1 meta2 : Metadata}
    (h : mget meta1 "title" (PyVal.str "") = mget meta2 "title" (PyVal.str "")) :
    title_term job qwords meta1 = title_term job qwords meta2 := by
  unfold title_term
  rw [h]

/-- The quality term only reads the `quality_score` lookup. -/
theorem quality_term_congr {meta1 meta2 : Metadata}
    (h : mget meta1 "quality_score" (PyVal.float 0) =
      mget meta2 "quality_score" (PyVal.float 0)) :
    quality_term meta1 = quality_term meta2 := by
  unfold quality_term
  rw [h]

theorem content_term_nonneg (job : Option String) (pc : String) : 0 ≤ content_term job pc := by
  cases job with
  | none => simp [content_term]
  | some j =>
    simp only [content_term]
    split
    · norm_num
    · norm_num

theorem content_term_le2 (job : Option String) (pc : String) : content_term job pc ≤ 2 := by
  cases job with
  | none => simp [content_term]
  | some j =>
    simp only [content_term]
    split
    · norm_num
    · norm_num

/-- Core of the entity-bonus argument: with equal quality and title
metadata, the `+10.0` job-match bonus of the matching document beats the at
most `+3.0` partial class bonus plus at most `+2.0` content bonus any
non-matching document can collect. -/
theorem score_dominance {jobs : List (String × String)} {query j c1 : String}
    {d1 d2 : Document} {s1 s2 : ℚ}
    (hjob : find_job_in_text jobs (strLower query) = Option.some j) (hj : j ≠ "")
    (hc1 : mget d1.metadata "class_name" (PyVal.str "") = PyVal.str c1)
    (hc1ne : c1 ≠ "") (hc1in : pyIn j (strLower c1) = true)
    (hc2 : ∀ c, mget d2.metadata "class_name" (PyVal.str "") = PyVal.str c →
      pyIn j (strLower c) = false)
    (hqe : mget d1.metadata "quality_score" (PyVal.float 0) =
      mget d2.metadata "quality_score" (PyVal.float 0))
    (hte : mget d1.metadata "title" (PyVal.str "") = mget d2.metadata "title" (PyVal.str ""))
    (hs1 : score_document jobs query d1 = Except.ok s1)
    (hs2 : score_document jobs query d2 = Except.ok s2) :
    s2 < s1 := by
  simp only [score_document, hjob] at hs1 hs2
  cases ht1 : title_term (Option.some j) ((pySplit (strLower query)).dedup) d1.metadata with
  | error e =>
    rw [class_name_term_match hj hc1 hc1ne hc1in, ht1] at hs1
    simp at hs1
  | ok t1 =>
    cases hq1 : quality_term d1.metadata with
    | error e =>
      rw [class_name_term_match hj hc1 hc1ne hc1in, ht1, hq1] at hs1
      simp at hs1
    | ok qv =>
      rw [class_name_term_match hj hc1 hc1ne hc1in, ht1, hq1] at hs1
      simp at hs1
      cases hcl2 : class_name_term (Option.some j) ((pySplit (strLower query)).dedup)
          d2.metadata with
      | error e =>
        rw [hcl2] at hs2
        simp at hs2
      | ok c2v =>
        have hc2le : c2v ≤ 3 := class_name_term_le3 hcl2 hc2
        rw [hcl2, ← title_term_congr hte, ht1, ← quality_term_congr hqe, hq1] at hs2
        simp at hs2
        have hcont1 := content_term_nonneg (Option.some j) d1.page_content
        have hcont2 := content_term_le2 (Option.some j) d2.page_content
        linarith [hs1, hs2]

/-- In a successful run, a document with a strictly higher score than some
returned document is itself returned, and every returned occurrence of it
precedes every returned occurrence of the lower-scored one. -/
theorem out_precedence {jobs : List (String × String)} {top_n : ℕ} {query : String}
    {docs out : List Document} {d1 d2 : Document}
    (hgrd : MetadataAwareRetriever.get_relevant_documents jobs top_n query docs = Except.ok out)
    (hd1 : d1 ∈ docs) (hne : d1 ≠ d2)
    (hlt : scoreVal jobs query d2 < scoreVal jobs query d1)
    (hd2out : d2 ∈ out) :
    d1 ∈ out ∧ ∀ i i', out.get? i = Option.some d1 → out.get? i' = Option.some d2 → i < i' := by
  obtain ⟨scored, hall, hout⟩ := grd_structure hgrd
  constructor
  · subst hout
    obtain ⟨p2, hp2t, hp2f⟩ := List.mem_map.mp hd2out
    obtain ⟨k2, hk2⟩ := List.mem_iff_get?.mp hp2t
    have hk2len : k2 < (List.take top_n (List.insertionSort scoredGE scored)).length :=
      (List.get?_eq_some.mp hk2).1
    have hk2n : k2 < top_n := by
      rw [List.length_take] at hk2len
      omega
    have hsk2 : (List.insertionSort scoredGE scored).get? k2 = Option.some p2 := by
      rw [← List.get?_take hk2n]
      exact hk2
    have hd1s : d1 ∈ List.map Prod.fst scored := by
      rw [score_all_map_fst hall]
      exact hd1
    obtain ⟨p1, hp1s, hp1f⟩ := List.mem_map.mp hd1s
    have hp1sorted : p1 ∈ List.insertionSort scoredGE scored :=
      (List.mem_insertionSort scoredGE).mpr hp1s
    obtain ⟨k1, hk1⟩ := List.mem_iff_get?.mp hp1sorted
    have hp2s : p2 ∈ scored :=
      (List.mem_insertionSort scoredGE).mp (List.mem_of_mem_take hp2t)
    have hsv1 : p1.2 = scoreVal jobs query d1 := by
      rw [scoreVal_of_mem hall p1 hp1s, hp1f]
    have hsv2 : p2.2 = scoreVal jobs query d2 := by
      rw [scoreVal_of_mem hall p2 hp2s, hp2f]
    have hk1k2 : k1 < k2 := by
      rcases lt_trichotomy k1 k2 with h | h | h
      · exact h
      · exfalso
        apply hne
        subst h
        rw [hk1] at hsk2
        injection hsk2 with he
        rw [← hp1f, ← hp2f, he]
      · exfalso
        have hpw : (List.insertionSort scoredGE scored).Pairwise scoredGE :=
          List.sorted_insertionSort scoredGE scored
        rw [List.pairwise_iff_getElem] at hpw
        obtain ⟨hb1, he1⟩ := List.get?_eq_some.mp hk1
        obtain ⟨hb2, he2⟩ := List.get?_eq_some.mp hsk2
        have hrel := hpw k2 k1 hb2 hb1 h
        have hg1 : (List.insertionSort scoredGE scored)[k1] = p1 := he1
        have hg2 : (List.insertionSort scoredGE scored)[k2] = p2 := he2
        rw [hg1, hg2] at hrel
        unfold scoredGE at hrel
        rw [hsv1, hsv2] at hrel
        exact absurd hrel (not_le.mpr hlt)
    have hk1n : k1 < top_n := lt_trans hk1k2 hk2n
    have htake1 : (List.take top_n (List.insertionSort scoredGE scored)).get? k1 =
        Option.some p1 := by
      rw [List.get?_take hk1n]
      exact hk1
    exact hp1f ▸ List.mem_map_of_mem Prod.fst (List.get?_mem htake1)
  · intro i i' hi hi'
    have hpwout := @grd_out_sorted jobs top_n query docs scored hall
    rw [← hout] at hpwout
    rw [List.pairwise_iff_getElem] at hpwout
    obtain ⟨hbi, hei⟩ := List.get?_eq_some.mp hi
    obtain ⟨hbi', hei'⟩ := List.get?_eq_some.mp hi'
    rcases lt_trichotomy i i' with h | h | h
    · exact h
    · exfalso
      apply hne
      subst h
      rw [hi] at hi'
      injection hi'
    · exfalso
      have hrel := hpwout i' i hbi' hbi h
      have hgi : out[i] = d1 := hei
      have hgi' : out[i'] = d2 := hei'
      rw [hgi, hgi'] at hrel
      exact absurd hrel (not_le.mpr hlt)

/-- Scenario A corpus: one document whose `class_name` is the queried job
(quality 8.5) among nine unrelated documents (quality 1.0). -/
def elvenDoc : Document :=
  ⟨"관련 본문", [("class_name", PyVal.str "엘븐나이트"), ("quality_score", PyVal.float (17/2))]⟩

def unrelatedDoc : Document := ⟨"본문", [("quality_score", PyVal.float 1)]⟩

def scenarioDocs : List Document :=
  [elvenDoc, unrelatedDoc, unrelatedDoc, unrelatedDoc, unrelatedDoc, unrelatedDoc,
    unrelatedDoc, unrelatedDoc, unrelatedDoc, unrelatedDoc]

/-- C3: entity-bonus dominance.  First part: for any two candidates whose
`quality_score` and `title` metadata agree, where exactly the first has a
(truthy, string) `class_name` containing the job entity detected in the
query, the matching document scores strictly higher after rescoring, is
returned whenever the other is, and every returned occurrence of it
precedes every returned occurrence of the other.  Second part (Scenario A):
for the query `"엘븐나이트 스킬트리"`, the corpus with one
`class_name="엘븐나이트"` document of quality 8.5 and nine unrelated
documents of quality 1.0 ranks the matching document first. -/
theorem entity_bonus_dominance :
    (∀ (jobs : List (String × String)) (top_n : ℕ) (query j c1 : String)
        (d1 d2 : Document) (docs out : List Document) (s1 s2 : ℚ),
      find_job_in_text jobs (strLower query) = Option.some j → j ≠ "" →
      mget d1.metadata "class_name" (PyVal.str "") = PyVal.str c1 → c1 ≠ "" →
      pyIn j (strLower c1) = true →
      (∀ c, mget d2.metadata "class_name" (PyVal.str "") = PyVal.str c →
        pyIn j (strLower c) = false) →
      mget d1.metadata "quality_score" (PyVal.float 0) =
        mget d2.metadata "quality_score" (PyVal.float 0) →
      mget d1.metadata "title" (PyVal.str "") = mget d2.metadata "title" (PyVal.str "") →
      score_document jobs query d1 = Except.ok s1 →
      score_document jobs query d2 = Except.ok s2 →
      MetadataAwareRetriever.get_relevant_documents jobs top_n query docs = Except.ok out →
      d1 ∈ docs → d2 ∈ out →
      s2 < s1 ∧ d1 ∈ out ∧
        ∀ i i', out.get? i = Option.some d1 → out.get? i' = Option.some d2 → i < i') ∧
    (MetadataAwareRetriever.get_relevant_documents [("엘븐나이트", "엘븐나이트")] 40
        "엘븐나이트 스킬트리" scenarioDocs).map List.head? =
      Except.ok (Option.some elvenDoc) := by
  constructor
  · intro jobs top_n query j c1 d1 d2 docs out s1 s2 hjob hj hc1 hc1ne hc1in hc2 hqe hte
      hs1 hs2 hgrd hd1 hd2out
    have hslt := score_dominance hjob hj hc1 hc1ne hc1in hc2 hqe hte hs1 hs2
    have hne : d1 ≠ d2 := by
      intro hcontra
      have hfalse := hc2 c1 (by rw [← hcontra]; exact hc1)
      simp [hc1in] at hfalse
    have hsv1 : scoreVal jobs query d1 = s1 := by
      unfold scoreVal
      rw [hs1]
    have hsv2 : scoreVal jobs query d2 = s2 := by
      unfold scoreVal
      rw [hs2]
    have hlt : scoreVal jobs query d2 < scoreVal jobs query d1 := by
      rw [hsv1, hsv2]
      exact hslt
    obtain ⟨hmem, hpos⟩ := out_precedence hgrd hd1 hne hlt hd2out
    exact ⟨hslt, hmem, hpos⟩
  · have hsm : score_document [("엘븐나이트", "엘븐나이트")] "엘븐나이트 스킬트리" elvenDoc =
        Except.ok 12 := by
      have hc : class_name_term
          (find_job_in_text [("엘븐나이트", "엘븐나이트")] (strLower "엘븐나이트 스킬트리"))
          ((pySplit (strLower "엘븐나이트 스킬트리")).dedup) elvenDoc.metadata =
          Except.ok 10 := by decide
      have ht : title_term
          (find_job_in_text [("엘븐나이트", "엘븐나이트")] (strLower "엘븐나이트 스킬트리"))
          ((pySplit (strLower "엘븐나이트 스킬트리")).dedup) elvenDoc.metadata =
          Except.ok 0 := by decide
      have hq : quality_term elvenDoc.metadata = Except.ok (min ((17/2) * (2/10)) 1) := rfl
      have hcont : content_term
          (find_job_in_text [("엘븐나이트", "엘븐나이트")] (strLower "엘븐나이트 스킬트리"))
          elvenDoc.page_content = 0 := by decide
      simp only [score_document, hc, ht, hq, hcont]
      norm_num [min_def]
    have hsu : score_document [("엘븐나이트", "엘븐나이트")] "엘븐나이트 스킬트리"
        unrelatedDoc = Except.ok (6/5) := by
      have hc : class_name_term
          (find_job_in_text [("엘븐나이트", "엘븐나이트")] (strLower "엘븐나이트 스킬트리"))
          ((pySplit (strLower "엘븐나이트 스킬트리")).dedup) unrelatedDoc.metadata =
          Except.ok 0 := by decide
      have ht : title_term
          (find_job_in_text [("엘븐나이트", "엘븐나이트")] (strLower "엘븐나이트 스킬트리"))
          ((pySplit (strLower "엘븐나이트 스킬트리")).dedup) unrelatedDoc.metadata =
          Except.ok 0 := by decide
      have hq : quality_term unrelatedDoc.metadata = Except.ok (min (1 * (2/10)) 1) := rfl
      have hcont : content_term
          (find_job_in_text [("엘븐나이트", "엘븐나이트")] (strLower "엘븐나이트 스킬트리"))
          unrelatedDoc.page_content = 0 := by decide
      simp only [score_document, hc, ht, hq, hcont]
      norm_num [min_def]
    have hall : score_all [("엘븐나이트", "엘븐나이트")] "엘븐나이트 스킬트리" scenarioDocs =
        Except.ok [(elvenDoc, 12), (unrelatedDoc, 6/5), (unrelatedDoc, 6/5),
          (unrelatedDoc, 6/5), (unrelatedDoc, 6/5), (unrelatedDoc, 6/5), (unrelatedDoc, 6/5),
          (unrelatedDoc, 6/5), (unrelatedDoc, 6/5), (unrelatedDoc, 6/5)] := by
      simp [scenarioDocs, score_all, hsm, hsu]
    have h1 : scoredGE (unrelatedDoc, (6/5 : ℚ)) (unrelatedDoc, (6/5 : ℚ)) := by
      unfold scoredGE
      norm_num
    have h2 : scoredGE (elvenDoc, (12 : ℚ)) (unrelatedDoc, (6/5 : ℚ)) := by
      unfold scoredGE
      norm_num
    have hsort : List.insertionSort scoredGE [(elvenDoc, (12 : ℚ)), (unrelatedDoc, 6/5),
        (unrelatedDoc, 6/5), (unrelatedDoc, 6/5), (unrelatedDoc, 6/5), (unrelatedDoc, 6/5),
        (unrelatedDoc, 6/5), (unrelatedDoc, 6/5), (unrelatedDoc, 6/5), (unrelatedDoc, 6/5)] =
        [(elvenDoc, (12 : ℚ)), (unrelatedDoc, 6/5), (unrelatedDoc, 6/5), (unrelatedDoc, 6/5),
        (unrelatedDoc, 6/5), (unrelatedDoc, 6/5), (unrelatedDoc, 6/5), (unrelatedDoc, 6/5),
        (unrelatedDoc, 6/5), (unrelatedDoc, 6/5)] := by
      simp only [List.insertionSort, List.orderedInsert, if_pos h1, if_pos h2]
    unfold MetadataAwareRetriever.get_relevant_documents
    rw [hall]
    show (Except.ok (((List.insertionSort scoredGE [(elvenDoc, (12 : ℚ)),
        (unrelatedDoc, 6/5), (unrelatedDoc, 6/5), (unrelatedDoc, 6/5), (unrelatedDoc, 6/5),
        (unrelatedDoc, 6/5), (unrelatedDoc, 6/5), (unrelatedDoc, 6/5), (unrelatedDoc, 6/5),
        (unrelatedDoc, 6/5)]).take 40).map Prod.fst) :
        Except PyErr (List Document)).map List.head? = Except.ok (Option.some elvenDoc)
    rw [hsort]
    rfl

/-- Witness for C3's general part: query `"아수라"`, a matching document
(class `아수라`) listed after a non-matching one; the matching document
scores 11 vs 1 and is returned (first). -/
theorem entity_bonus_dominance_witness :
    (1 : ℚ) < 11 ∧
    (⟨"a", [("class_name", PyVal.str "아수라")]⟩ : Document) ∈
      ([⟨"a", [("class_name", PyVal.str "아수라")]⟩, ⟨"b", []⟩] : List Document) := by
  have hs1 : score_document [("아수라", "아수라")] "아수라"
      ⟨"a", [("class_name", PyVal.str "아수라")]⟩ = Except.ok 11 := by
    have hc : class_name_term (find_job_in_text [("아수라", "아수라")] (strLower "아수라"))
        ((pySplit (strLower "아수라")).dedup) [("class_name", PyVal.str "아수라")] =
        Except.ok 10 := by decide
    have ht : title_term (find_job_in_text [("아수라", "아수라")] (strLower "아수라"))
        ((pySplit (strLower "아수라")).dedup) [("class_name", PyVal.str "아수라")] =
        Except.ok 0 := by decide
    have hq : quality_term [("class_name", PyVal.str "아수라")] =
        Except.ok (min (0 * (2/10)) 1) := rfl
    have hcont : content_term (find_job_in_text [("아수라", "아수라")] (strLower "아수라"))
        "a" = 0 := by decide
    simp only [score_document, hc, ht, hq, hcont]
    norm_num [min_def]
  have hs2 : score_document [("아수라", "아수라")] "아수라" ⟨"b", []⟩ = Except.ok 1 := by
    have hc : class_name_term (find_job_in_text [("아수라", "아수라")] (strLower "아수라"))
        ((pySplit (strLower "아수라")).dedup) [] = Except.ok 0 := by decide
    have ht : title_term (find_job_in_text [("아수라", "아수라")] (strLower "아수라"))
        ((pySplit (strLower "아수라")).dedup) [] = Except.ok 0 := by decide
    have hq : quality_term [] = Except.ok (min (0 * (2/10)) 1) := rfl
    have hcont : content_term (find_job_in_text [("아수라", "아수라")] (strLower "아수라"))
        "b" = 0 := by decide
    simp only [score_document, hc, ht, hq, hcont]
    norm_num [min_def]
  have hall : score_all [("아수라", "아수라")] "아수라"
      [⟨"b", []⟩, ⟨"a", [("class_name", PyVal.str "아수라")]⟩] =
      Except.ok [(⟨"b", []⟩, 1), (⟨"a", [("class_name", PyVal.str "아수라")]⟩, 11)] := by
    simp [score_all, hs1, hs2]
  have hneg : ¬ scoredGE (⟨"b", []⟩, (1 : ℚ))
      (⟨"a", [("class_name", PyVal.str "아수라")]⟩, (11 : ℚ)) := by
    unfold scoredGE
    norm_num
  have hsort : List.insertionSort scoredGE [(⟨"b", []⟩, (1 : ℚ)),
      (⟨"a", [("class_name", PyVal.str "아수라")]⟩, (11 : ℚ))] =
      [(⟨"a", [("class_name", PyVal.str "아수라")]⟩, (11 : ℚ)), (⟨"b", []⟩, (1 : ℚ))] := by
    simp only [List.insertionSort, List.orderedInsert, if_neg hneg]
  have hgrd : MetadataAwareRetriever.get_relevant_documents [("아수라", "아수라")] 40 "아수라"
      [⟨"b", []⟩, ⟨"a", [("class_name", PyVal.str "아수라")]⟩] =
      Except.ok [⟨"a", [("class_name", PyVal.str "아수라")]⟩, ⟨"b", []⟩] := by
    unfold MetadataAwareRetriever.get_relevant_documents
    rw [hall]
    show Except.ok (((List.insertionSort scoredGE [(⟨"b", []⟩, (1 : ℚ)),
        (⟨"a", [("class_name", PyVal.str "아수라")]⟩, (11 : ℚ))]).take 40).map Prod.fst) = _
    rw [hsort]
    rfl
  have h := entity_bonus_dominance.1 [("아수라", "아수라")] 40 "아수라" "아수라" "아수라"
    ⟨"a", [("class_name", PyVal.str "아수라")]⟩ ⟨"b", []⟩
    [⟨"b", []⟩, ⟨"a", [("class_name", PyVal.str "아수라")]⟩]
    [⟨"a", [("class_name", PyVal.str "아수라")]⟩, ⟨"b", []⟩] 11 1
    (by decide) (by decide) (by decide) (by decide) (by decide)
    (fun c hc => by
      have h2 : PyVal.str "" = PyVal.str c := hc
      injection h2 with h2
      rw [← h2]
      decide)
    (by decide) (by decide) hs1 hs2 hgrd (by decide) (by decide)
  exact ⟨h.1, h.2.1⟩

end DnfRag
